import Mathlib

/-!
Verification of the schema-driven spreadsheet population engine
(`libs/prepare-list.py` and `prepare-lists/prepare-list.py`).

Shallow embedding conventions:
* Python `None` is `Option.none`; non-`None` scalars are `Value`.
* Python / pandas floats are idealized as `ℚ` (exact arithmetic); the
  embedding keeps Python's behaviour of raising on `float(None)` and on
  division by a zero literal (both modelled as the exception path of the
  source's `try`/`except` blocks).
* A pandas `Series` row is an association list from field name to stored
  value; `hasField` models `name in row.index`, `rowGet` models `row.get`.
* Python `str.strip()`, `str.lower()`, `str.upper()` and `in` are modelled
  by the structural functions `pyStrip`, `pyLower`, `pyUpper`,
  `strContainsChar` below (ASCII case mapping, ASCII whitespace).
* `str()` of a numeric value is idealized as `toString` of the rational;
  every theorem below only evaluates `pyStr` on string-valued cells.
-/

/-- A non-`None` scalar held in a result-set row or a spreadsheet cell. -/
inductive Value where
  | vNum (q : ℚ)
  | vStr (s : String)
deriving DecidableEq

open Value

/-- A result-set row: field name ↦ stored value (`none` = Python `None`). -/
abbrev Row := List (String × Option Value)

/-- `name in row.index`. -/
def hasField (row : Row) (s : String) : Bool :=
  row.any (fun p => p.1 == s)

/-- `row.get(name)` (returns `None` when the field is missing). -/
def rowGet (row : Row) (s : String) : Option Value :=
  match row.find? (fun p => p.1 == s) with
  | some p => p.2
  | none => none

/-- Python `s.strip()`: drop leading and trailing whitespace. -/
def pyStrip (s : String) : String :=
  String.mk (((s.data.dropWhile Char.isWhitespace).reverse.dropWhile
    Char.isWhitespace).reverse)

/-- Python `s.lower()` (ASCII). -/
def pyLower (s : String) : String :=
  String.mk (s.data.map Char.toLower)

/-- Python `s.upper()` (ASCII). -/
def pyUpper (s : String) : String :=
  String.mk (s.data.map Char.toUpper)

/-- Python `c in s` for a single character. -/
def strContainsChar (s : String) (c : Char) : Bool :=
  s.data.contains c

/-- Digit list to natural number (most significant first). -/
def digitsToNat (cs : List Char) : ℕ :=
  cs.foldl (fun n c => 10 * n + (c.toNat - '0'.toNat)) 0

/-- Python `float(s)` on plain decimal literals: optional surrounding
whitespace, optional sign, digits with an optional decimal point (at least
one digit overall).  Exponents and `inf`/`nan` spellings are not modelled;
no source expression uses them.  `none` models the raised `ValueError`. -/
def pyFloat (s : String) : Option ℚ :=
  let cs := (pyStrip s).data
  let signed : ℚ × List Char :=
    match cs with
    | '+' :: t => (1, t)
    | '-' :: t => (-1, t)
    | _ => (1, cs)
  let ip := signed.2.takeWhile Char.isDigit
  let rest := signed.2.dropWhile Char.isDigit
  match rest with
  | [] => if ip.isEmpty then none else some (signed.1 * (digitsToNat ip : ℚ))
  | '.' :: t =>
      let fp := t.takeWhile Char.isDigit
      let rest2 := t.dropWhile Char.isDigit
      if rest2.isEmpty && !(ip.isEmpty && fp.isEmpty) then
        some (signed.1 *
          ((digitsToNat ip : ℚ) + (digitsToNat fp : ℚ) / (10 : ℚ) ^ fp.length))
      else none
  | _ => none

/-- Python `float(v)` on a non-`None` scalar. -/
def valFloat : Value → Option ℚ
  | vNum q => some q
  | vStr s => pyFloat s

/-- Python `float(v)` where `v` may be `None` (`none` = raised exception). -/
def valFloatO (o : Option Value) : Option ℚ :=
  o.bind valFloat

/-- Characters accepted by the regex class `[0-9.]`. -/
def isNumChar (c : Char) : Bool :=
  c.isDigit || c == '.'

/-- The optional suffix `(?:\s*([*/+-])\s*([0-9.]+))?` of the source regex
`expr_re`, applied right after the closing bracket.  Returns the operator
and numeric-literal captures when the whole group matches, else `none`
(the group then matches empty). -/
def parseTail (cs : List Char) : Option (Char × List Char) :=
  let cs1 := cs.dropWhile Char.isWhitespace
  match cs1 with
  | c :: rest =>
      if c == '*' || c == '/' || c == '+' || c == '-' then
        let rest1 := rest.dropWhile Char.isWhitespace
        let num := rest1.takeWhile isNumChar
        if num.isEmpty then none else some (c, num)
      else none
  | [] => none

/-- `expr_re.search(expr)` for the source pattern
`\[([^\]]+)\](?:\s*([*/+-])\s*([0-9.]+))?`: the leftmost position at which
a non-empty bracketed group closes yields the match; the optional
operator/number group is parsed greedily and dropped when incomplete. -/
def reSearch (cs : List Char) : Option (List Char × Option (Char × List Char)) :=
  match cs with
  | [] => none
  | '[' :: rest =>
      let cat := rest.takeWhile (fun c => !(c == ']'))
      match rest.dropWhile (fun c => !(c == ']')) with
      | ']' :: rest3 =>
          if cat.isEmpty then reSearch rest else some (cat, parseTail rest3)
      | _ => reSearch rest
  | _ :: rest => reSearch rest

/-- `eval_expr(expr, row)` (defined identically in both scripts; called by
the `prepare-lists` driver): direct field reference (exact then lowercase),
then the bracketed-category pattern with an optional trailing operator and
numeric literal; `pd.isna` on the resolved value short-circuits to `None`;
exceptions while applying the operator fall back to the resolved value. -/
def eval_expr (expr : String) (row : Row) : Option Value :=
  if hasField row expr then rowGet row expr
  else if hasField row (pyLower expr) then rowGet row (pyLower expr)
  else
    match reSearch expr.data with
    | none => none
    | some (cat, tail) =>
        let c := String.mk cat
        let val : Option Value :=
          if hasField row c then rowGet row c
          else if hasField row (pyLower c) then rowGet row (pyLower c)
          else if hasField row (pyUpper c) then rowGet row (pyUpper c)
          else none
        match val with
        | none => none
        | some v =>
            match tail with
            | none => some v
            | some (op, num) =>
                match pyFloat (String.mk num), valFloat v with
                | some numf, some x =>
                    if op == '/' then
                      if numf = 0 then some v else some (vNum (x / numf))
                    else if op == '*' then some (vNum (x * numf))
                    else if op == '+' then some (vNum (x + numf))
                    else if op == '-' then some (vNum (x - numf))
                    else some v
                | _, _ => some v

/-- `get_value(expr, row)` from the `libs` driver: empty expression is
`None`; direct field reference (exact then lowercase); then the bracket
pattern resolved exact/lower/upper — note the trailing operator captures
are ignored; an unresolved expression falls through to `float(expr)`. -/
def get_value (expr : String) (row : Row) : Option Value :=
  if expr == "" then none
  else if hasField row expr then rowGet row expr
  else if hasField row (pyLower expr) then rowGet row (pyLower expr)
  else
    match reSearch expr.data with
    | some (cat, _) =>
        let c := String.mk cat
        if hasField row c then rowGet row c
        else if hasField row (pyLower c) then rowGet row (pyLower c)
        else if hasField row (pyUpper c) then rowGet row (pyUpper c)
        else (pyFloat expr).map vNum
    | none => (pyFloat expr).map vNum

/-- `dfield_l.split("*", 1)`: the part before the first `'*'` and the part
after it. -/
def splitFirstStar (s : String) : String × String :=
  (String.mk (s.data.takeWhile (fun c => !(c == '*'))),
   String.mk ((s.data.dropWhile (fun c => !(c == '*'))).drop 1))

/-- Python `rval in (None, 0)` for the multiplicative guard. -/
def rvalZeroOrNone : Option Value → Bool
  | none => true
  | some (vNum q) => q == 0
  | some (vStr _) => false

/-- The source's `lval` local in the multiplicative branch:
`get_value(left.strip(), prow)` for `left` the part of the stripped
expression before the first `'*'`. -/
def mulLhs (d : String) (row : Row) : Option Value :=
  get_value (pyStrip (splitFirstStar d).1) row

/-- The source's `rval` local: `float(right.strip())`, falling back to
`get_value(right.strip(), prow)` when the parse raises. -/
def mulRhs (d : String) (row : Row) : Option Value :=
  match pyFloat (pyStrip (splitFirstStar d).2) with
  | some q => some (vNum q)
  | none => get_value (pyStrip (splitFirstStar d).2) row

/-- The `libs` driver's per-descriptor value computation (the body that
sets `val` for a column): empty `dfcolumnname` gives `None`; an expression
containing `'*'` is split at the first `'*'`, the left part resolved by
`get_value`, the right part parsed as a float else resolved by `get_value`,
with the `lval is None or rval in (None, 0)` guard; otherwise the stripped
expression goes straight to `get_value`. -/
def computeVal (dfield : String) (row : Row) : Option Value :=
  if dfield == "" then none
  else
    let d := pyStrip dfield
    if strContainsChar d '*' then
      if (mulLhs d row).isNone || rvalZeroOrNone (mulRhs d row) then none
      else
        match valFloatO (mulLhs d row), valFloatO (mulRhs d row) with
        | some a, some b => some (vNum (a * b))
        | _, _ => none
    else get_value d row

/-- Python `str(v)` (numeric rendering idealized as `toString ℚ`; all
theorems below only evaluate this on strings). -/
def pyStr : Value → String
  | vNum q => toString q
  | vStr s => s

/-- Python truthiness of a possibly-`None` scalar (`bool(v)`). -/
def pyTruthy : Option Value → Bool
  | none => false
  | some (vNum q) => !(q == 0)
  | some (vStr s) => !(s == "")

/-- An openpyxl worksheet: cell contents (1-based row/column; `none` =
empty cell) plus the `max_column` extent. -/
structure Ws where
  cells : ℕ → ℕ → Option Value
  maxCol : ℕ

/-- `ws.cell(row=r, column=c, value=v)`: openpyxl creates the cell object
(so `max_column` grows to cover `c`) but assigns only when the value is not
`None` — a `None` value leaves the stored content unchanged. -/
def wsCell (ws : Ws) (r c : ℕ) (v : Option Value) : Ws :=
  { cells := fun r' c' =>
      if r' = r ∧ c' = c then (if v.isSome then v else ws.cells r' c')
      else ws.cells r' c'
    maxCol := max ws.maxCol c }

/-- One schema column descriptor: `columnname` and `dfcolumnname` as read
with `col.get(..., "")` (a missing key is the empty string). -/
structure ColDesc where
  columnname : String
  dfcolumnname : String
deriving DecidableEq

/-- `str(cell.value).strip() if cell.value is not None else ""`. -/
def cellStr (o : Option Value) : String :=
  match o with
  | none => ""
  | some v => pyStrip (pyStr v)

/-- `row_vals` for worksheet row `r`: the trimmed strings of the cells in
columns `1..max_column` (openpyxl's `ws[r]`). -/
def rowVals (ws : Ws) (r : ℕ) : List String :=
  (List.range' 1 ws.maxCol).map (fun c => cellStr (ws.cells r c))

/-- Header-candidate score of row `r`: the count of schema columns whose
stripped `columnname` occurs verbatim among the row's cell strings. -/
def rowScore (ws : Ws) (cols : List ColDesc) (r : ℕ) : ℕ :=
  cols.countP (fun col => (rowVals ws r).contains (pyStrip col.columnname))

/-- The header-locator loop after the first `n` candidate rows: starts
from `header_row = None`, `best_score = -1`, and for each `r` in `1..n`
replaces the pair when `score > best_score` (strictly). -/
def scanTo (ws : Ws) (cols : List ColDesc) : ℕ → Option ℕ × ℤ
  | 0 => (none, -1)
  | n + 1 =>
      let p := scanTo ws cols n
      if p.2 < (rowScore ws cols (n + 1) : ℤ) then
        (some (n + 1), (rowScore ws cols (n + 1) : ℤ))
      else p

/-- The position map `col_map`, modelled as the Python dict's lookup
function. -/
abbrev ColMap := String → Option ℕ

/-- Dict insertion `m[k] = i`. -/
def cmSet (m : ColMap) (k : String) (i : ℕ) : ColMap :=
  fun k' => if k' = k then some i else m k'

/-- The empty dict. -/
def cmEmpty : ColMap := fun _ => none

/-- Position map built from header row `r`: for each column index (left to
right), every schema column whose stripped `columnname` equals that cell's
string is mapped to the index (later matches overwrite). -/
def colMapFromHeader (ws : Ws) (cols : List ColDesc) (r : ℕ) : ColMap :=
  (List.range' 1 ws.maxCol).foldl
    (fun m idx =>
      cols.foldl
        (fun m' col =>
          if pyStrip col.columnname = cellStr (ws.cells r idx) then
            cmSet m' col.columnname idx
          else m')
        m)
    cmEmpty

/-- Fallback positional map: the i-th schema column (1-based) maps to
column i. -/
def colMapPositional (cols : List ColDesc) : ColMap :=
  cols.enum.foldl (fun m p => cmSet m p.2.columnname (p.1 + 1)) cmEmpty

/-- `col_map` construction: header-derived when a header row was found
with a positive best score, positional otherwise. -/
def buildColMap (ws : Ws) (cols : List ColDesc) (startingRow : ℕ) : ColMap :=
  match scanTo ws cols startingRow with
  | (some r, bs) =>
      if 0 < bs then colMapFromHeader ws cols r else colMapPositional cols
  | (none, _) => colMapPositional cols

/-- One lookup-CSV record: stripped `Part ID` and `Description` fields. -/
structure LookupRec where
  partid : String
  description : String
deriving DecidableEq

/-- `lookup_map.get`, modelled as the dict's lookup function. -/
abbrev LookupMap := String → Option LookupRec

/-- Per-descriptor write of the `libs` driver: compute the value, resolve
the column index from `col_map` (appending at `max_column + 1` when the
`columnname` has no entry), then `ws.cell(write_row, col_idx, val)`. -/
def colStep (prow : Row) (wr : ℕ) (st : Ws × ColMap) (col : ColDesc) :
    Ws × ColMap :=
  let val := computeVal col.dfcolumnname prow
  match st.2 col.columnname with
  | some i => (wsCell st.1 wr i val, st.2)
  | none =>
      let i := st.1.maxCol + 1
      (wsCell st.1 wr i val, cmSet st.2 col.columnname i)

/-- The enrichment key for the current output row: the stripped string of
the cell at the fixed key column `1` when that gives a non-empty string,
else (when the result set has a `partid` field) the stripped string of the
row's own `partid` value with falsy values replaced by `""`. -/
def enrichKey (ws : Ws) (wr : ℕ) (prow : Row) : String :=
  let k1 := match ws.cells wr 1 with
    | none => ""
    | some v => pyStrip (pyStr v)
  if k1 = "" then
    if hasField prow "partid" then
      match rowGet prow "partid" with
      | some v => if pyTruthy (some v) then pyStrip (pyStr v) else ""
      | none => ""
    else ""
  else k1

/-- Lookup enrichment for one written row: when the (re-stripped) key hits
the lookup map, overwrite the fixed columns `2` (`Part ID`) and `3`
(`Description`) with the record's fields; otherwise leave the worksheet
unchanged. -/
def enrichStep (ws : Ws) (wr : ℕ) (prow : Row) (lookup : LookupMap) : Ws :=
  let key := enrichKey ws wr prow
  if key = "" then ws
  else
    match lookup (pyStrip key) with
    | some lm =>
        wsCell (wsCell ws wr 2 (some (vStr lm.partid))) wr 3
          (some (vStr lm.description))
    | none => ws

/-- Driver state for one document: worksheet, position map, write cursor. -/
structure DState where
  ws : Ws
  cm : ColMap
  wr : ℕ

/-- Processing of one result row: all descriptor writes in schema order,
then lookup enrichment, then the unconditional cursor increment. -/
def rowStep (cols : List ColDesc) (lookup : LookupMap) (st : DState)
    (prow : Row) : DState :=
  let p := cols.foldl (colStep prow st.wr) (st.ws, st.cm)
  { ws := enrichStep p.1 st.wr prow lookup, cm := p.2, wr := st.wr + 1 }

/-- The per-document population loop over the result set, in order. -/
def processRows (cols : List ColDesc) (lookup : LookupMap) (st : DState)
    (rows : List Row) : DState :=
  rows.foldl (rowStep cols lookup) st

/-- The driver state right before the row loop: the opened template, the
freshly built position map, and `write_row = starting_row`. -/
def initState (ws : Ws) (cols : List ColDesc) (startingRow : ℕ) : DState :=
  ⟨ws, buildColMap ws cols startingRow, startingRow⟩

/-- One discovered template document for the batch loop, abstracted to
what the store-error control flow depends on: its path relative to the
input root and whether `load_workbook` / `wb.save` succeed on it. -/
structure BatchDoc where
  rel : String
  openOk : Bool
  saveOk : Bool
deriving DecidableEq

/-- The batch loop of `main` over the discovered documents, in traversal
order: a document with no schema entry is skipped and the loop continues;
`load_workbook` and `wb.save` are called with no surrounding
`try`/`except`, so a store failure propagates out of the loop — the
result is then the error alone and no later document is examined.  The
first component lists the documents reported as processed and written. -/
def runBatch (schemas : List String) : List BatchDoc → List String × Option String
  | [] => ([], none)
  | d :: rest =>
      if schemas.contains d.rel then
        if d.openOk then
          if d.saveOk then
            let p := runBatch schemas rest
            (d.rel :: p.1, p.2)
          else ([], some "save failed")
        else ([], some "open failed")
      else runBatch schemas rest

/-- Header-locator fixture: descriptors `SKU`, `Price`; both header names
occur in row 3 and again in row 5; all other cells are blank. -/
def wsEx : Ws :=
  { cells := fun r c =>
      if r = 3 ∧ c = 1 then some (vStr "SKU")
      else if r = 3 ∧ c = 2 then some (vStr "Price")
      else if r = 5 ∧ c = 1 then some (vStr "SKU")
      else if r = 5 ∧ c = 2 then some (vStr "Price")
      else none
    maxCol := 2 }

/-- Schema columns for the header-locator fixtures. -/
def colsEx : List ColDesc := [⟨"SKU", "sku"⟩, ⟨"Price", "price"⟩]

/-- A template whose header region is entirely blank. -/
def wsBlank : Ws := { cells := fun _ _ => none, maxCol := 2 }

/-- Enrichment fixture: key cell `P-1` in column 1 and a description the
expression pass wrote as `UNKNOWN` in column 3 of row 7. -/
def wsU : Ws :=
  { cells := fun r c =>
      if r = 7 ∧ c = 1 then some (vStr "P-1")
      else if r = 7 ∧ c = 3 then some (vStr "UNKNOWN")
      else none
    maxCol := 3 }

/-- Lookup fixture: `P-1` maps to alternate id `ALT-1`, description
`Alpha Core`. -/
def lmU : LookupMap :=
  fun k => if k = "P-1" then some ⟨"ALT-1", "Alpha Core"⟩ else none

/-- A document whose workbook fails to open. -/
def docA : BatchDoc := ⟨"a.xlsx", false, true⟩

/-- A healthy document. -/
def docB : BatchDoc := ⟨"b.xlsx", true, true⟩

/-- A document whose workbook opens but fails to save. -/
def docC : BatchDoc := ⟨"c.xlsx", true, false⟩

/-- A template worksheet holding a value at row 4, column 2. -/
def wsT : Ws :=
  { cells := fun r c => if r = 4 ∧ c = 2 then some (vStr "keep") else none
    maxCol := 3 }

/-- A descriptor with an empty source expression. -/
def colEmpty : ColDesc := ⟨"Notes", ""⟩

/-- A two-row result set. -/
def rowsW : List Row :=
  [[("partid", some (vStr "P-1"))], [("partid", some (vStr "P-2"))]]

/-- An empty lookup table (enrichment is a no-op). -/
def lookup0 : LookupMap := fun _ => none

/-- The header-scan loop invariant: after scanning rows `1..n` (`n ≥ 1`)
the tracked pair is the earliest row attaining the maximum score, with the
score recorded exactly. -/
lemma scanTo_spec (ws : Ws) (cols : List ColDesc) :
    ∀ n : ℕ, 1 ≤ n → ∃ h : ℕ,
      scanTo ws cols n = (some h, (rowScore ws cols h : ℤ)) ∧
      1 ≤ h ∧ h ≤ n ∧
      (∀ r, 1 ≤ r → r ≤ n → rowScore ws cols r ≤ rowScore ws cols h) ∧
      (∀ r, 1 ≤ r → r < h → rowScore ws cols r < rowScore ws cols h) := by
  intro n
  induction n with
  | zero => omega
  | succ n ih =>
    intro _
    by_cases hn : 1 ≤ n
    · obtain ⟨h, heq, hb1, hb2, hmax, hstrict⟩ := ih hn
      by_cases hlt : (rowScore ws cols h : ℤ) < (rowScore ws cols (n + 1) : ℤ)
      · have hlt' : rowScore ws cols h < rowScore ws cols (n + 1) := by
          exact_mod_cast hlt
        refine ⟨n + 1, ?_, by omega, le_refl _, ?_, ?_⟩
        · simp [scanTo, heq, hlt]
        · intro r hr1 hr2
          have hc : r ≤ n ∨ r = n + 1 := by omega
          rcases hc with hc | hc
          · exact le_trans (hmax r hr1 hc) (le_of_lt hlt')
          · subst hc; exact le_refl _
        · intro r hr1 hr2
          have hc : r ≤ n := by omega
          exact lt_of_le_of_lt (hmax r hr1 hc) hlt'
      · have hle : rowScore ws cols (n + 1) ≤ rowScore ws cols h := by
          have := not_lt.mp hlt
          exact_mod_cast this
        refine ⟨h, ?_, hb1, le_trans hb2 (Nat.le_succ n), ?_, hstrict⟩
        · simp [scanTo, heq, hlt]
        · intro r hr1 hr2
          have hc : r ≤ n ∨ r = n + 1 := by omega
          rcases hc with hc | hc
          · exact hmax r hr1 hc
          · subst hc; exact hle
    · have hn0 : n = 0 := by omega
      subst hn0
      have hpos : ((-1 : ℤ) < (rowScore ws cols 1 : ℤ)) := by
        have := Int.natCast_nonneg (rowScore ws cols 1)
        omega
      refine ⟨1, ?_, le_refl 1, le_refl 1, ?_, ?_⟩
      · simp [scanTo, hpos]
      · intro r hr1 hr2
        have : r = 1 := by omega
        subst this; exact le_refl _
      · intro r hr1 hr2; omega

/-- A row scores `0` exactly when no descriptor name occurs among its cell
strings. -/
lemma rowScore_eq_zero_iff (ws : Ws) (cols : List ColDesc) (r : ℕ) :
    rowScore ws cols r = 0 ↔
      ∀ col ∈ cols, (rowVals ws r).contains (pyStrip col.columnname) = false := by
  simp [rowScore, List.countP_eq_zero]

/-- C2: for startingRow ≥ 1, the header locator scans rows 1..startingRow,
scores each row as the count of stripped descriptor names occurring
verbatim among the row's stripped cell strings, and selects the earliest
row achieving the maximum score (a later row with an equal score never
overwrites the first-seen maximum). -/
theorem c2_header_locator_earliest_max (ws : Ws) (cols : List ColDesc)
    (startingRow : ℕ) (hsr : 1 ≤ startingRow) :
    ∃ h : ℕ,
      scanTo ws cols startingRow = (some h, (rowScore ws cols h : ℤ)) ∧
      1 ≤ h ∧ h ≤ startingRow ∧
      (∀ r, 1 ≤ r → r ≤ startingRow →
        rowScore ws cols r ≤ rowScore ws cols h) ∧
      (∀ r, 1 ≤ r → r < h → rowScore ws cols r < rowScore ws cols h) :=
  scanTo_spec ws cols startingRow hsr

/-- C2 witness: with descriptors SKU and Price present in rows 3 and 5 of
`wsEx` and startingRow 5, the invariant holds and the chosen row is row 3
with score 2 (the earlier of the two full matches). -/
theorem c2_header_locator_earliest_max_witness :
    (1 ≤ 5 ∧
      ∃ h : ℕ,
        scanTo wsEx colsEx 5 = (some h, (rowScore wsEx colsEx h : ℤ)) ∧
        1 ≤ h ∧ h ≤ 5 ∧
        (∀ r, 1 ≤ r → r ≤ 5 → rowScore wsEx colsEx r ≤ rowScore wsEx colsEx h) ∧
        (∀ r, 1 ≤ r → r < h → rowScore wsEx colsEx r < rowScore wsEx colsEx h)) ∧
      scanTo wsEx colsEx 5 = (some 3, 2) :=
  ⟨⟨by omega, c2_header_locator_earliest_max wsEx colsEx 5 (by omega)⟩,
    by with_unfolding_all decide⟩

/-- C3: the positional fallback map (i-th descriptor ↦ column i) is used
exactly when no row in 1..startingRow contains any descriptor name (best
score 0); when some row scores above 0 the map is instead built from the
chosen header row's cells. -/
theorem c3_positional_fallback_iff_no_header (ws : Ws) (cols : List ColDesc)
    (startingRow : ℕ) (hsr : 1 ≤ startingRow) :
    ((scanTo ws cols startingRow).2 = 0 ↔
      ∀ r, 1 ≤ r → r ≤ startingRow →
        ∀ col ∈ cols, (rowVals ws r).contains (pyStrip col.columnname) = false) ∧
    ((scanTo ws cols startingRow).2 = 0 →
      ∀ nm, buildColMap ws cols startingRow nm = colMapPositional cols nm) ∧
    (0 < (scanTo ws cols startingRow).2 →
      ∃ h : ℕ, (scanTo ws cols startingRow).1 = some h ∧
        ∀ nm, buildColMap ws cols startingRow nm = colMapFromHeader ws cols h nm) := by
  obtain ⟨h, heq, hb1, hb2, hmax, hstrict⟩ := scanTo_spec ws cols startingRow hsr
  refine ⟨?_, ?_, ?_⟩
  · rw [heq]
    constructor
    · intro h0 r hr1 hr2
      have hs : rowScore ws cols h = 0 := by simpa using h0
      have : rowScore ws cols r = 0 :=
        Nat.le_zero.mp (hs ▸ hmax r hr1 hr2)
      exact (rowScore_eq_zero_iff ws cols r).mp this
    · intro hall
      have : rowScore ws cols h = 0 :=
        (rowScore_eq_zero_iff ws cols h).mpr (hall h hb1 hb2)
      simp [this]
  · intro h0 nm
    rw [heq] at h0
    have hs : rowScore ws cols h = 0 := by simpa using h0
    simp [buildColMap, heq, hs]
  · intro hpos
    rw [heq] at hpos
    refine ⟨h, by rw [heq], ?_⟩
    intro nm
    simp [buildColMap, heq, hpos]

/-- C3 witness: with a blank header region the best score is 0 and the
positional fallback is used; concretely SKU ↦ column 1, Price ↦ column 2. -/
theorem c3_positional_fallback_iff_no_header_witness :
    (1 ≤ 2 ∧
      ((scanTo wsBlank colsEx 2).2 = 0 ↔
        ∀ r, 1 ≤ r → r ≤ 2 →
          ∀ col ∈ colsEx,
            (rowVals wsBlank r).contains (pyStrip col.columnname) = false) ∧
      ((scanTo wsBlank colsEx 2).2 = 0 →
        ∀ nm, buildColMap wsBlank colsEx 2 nm = colMapPositional colsEx nm) ∧
      (0 < (scanTo wsBlank colsEx 2).2 →
        ∃ h : ℕ, (scanTo wsBlank colsEx 2).1 = some h ∧
          ∀ nm, buildColMap wsBlank colsEx 2 nm = colMapFromHeader wsBlank colsEx h nm)) ∧
    buildColMap wsBlank colsEx 2 "SKU" = some 1 ∧
    buildColMap wsBlank colsEx 2 "Price" = some 2 :=
  ⟨⟨by omega, c3_positional_fallback_iff_no_header wsBlank colsEx 2 (by omega)⟩,
    by with_unfolding_all decide, by with_unfolding_all decide⟩

/-- C1: the claim says evaluating a bracketed reference with a trailing
operator applies the operator (`[RTL-1]/0.9` with rtl-1 = 90 gives 100).
The helper `eval_expr` — introduced in the source with the comment
"helper to evaluate dfcolumn expressions like `[DST-1]/0.9`" — does so,
but the `libs` driver never calls it: its write path resolves the bracket
through `get_value`, which ignores the captured operator and literal and
returns the field value unchanged (90).  A null field yields absent in
both, regardless of the trailing operator. -/
theorem c1_libs_driver_drops_trailing_operator :
    computeVal "[RTL-1]/0.9" [("rtl-1", some (vNum 90))] = some (vNum 90) ∧
    eval_expr "[RTL-1]/0.9" [("rtl-1", some (vNum 90))] = some (vNum 100) ∧
    computeVal "[RTL-1]/0.9" [("rtl-1", none)] = none ∧
    eval_expr "[RTL-1]/0.9" [("rtl-1", none)] = none := by
  refine ⟨?_, ?_, ?_, ?_⟩ <;> with_unfolding_all decide

/-- C4: for an expression containing `'*'`, the evaluator splits at the
first `'*'`, resolves the left part as an expression and the right part
as a numeric literal (else as an expression); if the left side is absent,
or the right side is absent or equal to 0, the result is absent rather
than zero; otherwise it is `float(left) * float(right)`. -/
theorem c4_multiplicative_guard (dfield : String) (row : Row)
    (h1 : ¬ dfield = "") (h2 : strContainsChar (pyStrip dfield) '*' = true) :
    ((mulLhs (pyStrip dfield) row = none ∨
        mulRhs (pyStrip dfield) row = none ∨
        mulRhs (pyStrip dfield) row = some (vNum 0)) →
      computeVal dfield row = none) ∧
    (∀ a b : ℚ, rvalZeroOrNone (mulRhs (pyStrip dfield) row) = false →
      valFloatO (mulLhs (pyStrip dfield) row) = some a →
      valFloatO (mulRhs (pyStrip dfield) row) = some b →
      computeVal dfield row = some (vNum (a * b))) := by
  have hne : (dfield == "") = false := beq_eq_false_iff_ne.mpr h1
  constructor
  · intro hdisj
    have hguard : ((mulLhs (pyStrip dfield) row).isNone
        || rvalZeroOrNone (mulRhs (pyStrip dfield) row)) = true := by
      rcases hdisj with hd | hd | hd
      · simp [hd]
      · simp [hd, rvalZeroOrNone]
      · simp [hd, rvalZeroOrNone]
    simp [computeVal, hne, h2, hguard]
  · intro a b hz hl hr
    have hln : (mulLhs (pyStrip dfield) row).isNone = false := by
      cases hml : mulLhs (pyStrip dfield) row with
      | none => rw [hml] at hl; simp [valFloatO] at hl
      | some v => simp
    simp [computeVal, hne, h2, hln, hz, hl, hr]

/-- C4 witness: `qty * 0` with qty = 5 is absent, not 0.0 (the right side
parses as the literal 0, triggering the guard). -/
theorem c4_multiplicative_guard_witness :
    computeVal "qty * 0" [("qty", some (vNum 5))] = none :=
  (c4_multiplicative_guard "qty * 0" [("qty", some (vNum 5))] (by decide)
      (by with_unfolding_all decide)).1
    (Or.inr (Or.inr (by with_unfolding_all decide)))

/-- C6 counterexample: the claim says a direct field reference takes
precedence over the multiplicative split.  In the `libs` driver the
`'*'` test comes first: for a row with a field literally named `a*b`,
evaluating the expression `a*b` does not return the field's value 7 — it
is split at `'*'` and resolves to absent. -/
theorem c6_counterexample :
    hasField [("a*b", some (vNum 7))] "a*b" = true ∧
    rowGet [("a*b", some (vNum 7))] "a*b" = some (vNum 7) ∧
    computeVal "a*b" [("a*b", some (vNum 7))] = none := by
  refine ⟨by decide, by with_unfolding_all decide, by with_unfolding_all decide⟩

/-- C6 amended: for expressions whose stripped form does not contain
`'*'`, a direct field reference takes highest precedence — the exact
stripped expression, else its lowercase form, is looked up in the row
before any bracketed-category match or numeric-literal interpretation;
expressions containing `'*'` are split first instead. -/
theorem c6_amended_direct_ref_precedence (expr : String) (row : Row)
    (h1 : ¬ expr = "") (h2 : strContainsChar (pyStrip expr) '*' = false)
    (h3 : ¬ pyStrip expr = "") :
    (hasField row (pyStrip expr) = true →
      computeVal expr row = rowGet row (pyStrip expr)) ∧
    (hasField row (pyStrip expr) = false →
      hasField row (pyLower (pyStrip expr)) = true →
      computeVal expr row = rowGet row (pyLower (pyStrip expr))) := by
  have hne : (expr == "") = false := beq_eq_false_iff_ne.mpr h1
  have hne2 : (pyStrip expr == "") = false := beq_eq_false_iff_ne.mpr h3
  constructor
  · intro hf
    simp [computeVal, hne, h2, get_value, hne2, hf]
  · intro hf hl
    simp [computeVal, hne, h2, get_value, hne2, hf, hl]

/-- C6 amended witness: a star-free direct reference returns the field
value. -/
theorem c6_amended_direct_ref_precedence_witness :
    computeVal "price" [("price", some (vNum 3))] = some (vNum 3) :=
  ((c6_amended_direct_ref_precedence "price" [("price", some (vNum 3))]
        (by decide) (by decide) (by decide)).1
      (by decide)).trans (by with_unfolding_all decide)

/-- Writing a cell does not change any other cell's content. -/
lemma wsCell_cells_ne (ws : Ws) (r c : ℕ) (v : Option Value) (rr cc : ℕ)
    (h : ¬ (rr = r ∧ cc = c)) : (wsCell ws r c v).cells rr cc = ws.cells rr cc := by
  simp [wsCell, h]

/-- The descriptor fold for one result row touches no cell outside the
current write row. -/
lemma colFold_frame (prow : Row) (wr : ℕ) (cols : List ColDesc)
    (p : Ws × ColMap) (r c : ℕ) (h : ¬ r = wr) :
    (cols.foldl (colStep prow wr) p).1.cells r c = p.1.cells r c := by
  induction cols generalizing p with
  | nil => rfl
  | cons col rest ih =>
      rw [List.foldl_cons, ih]
      cases hcm : p.2 col.columnname with
      | some i => simp [colStep, hcm, wsCell, h]
      | none => simp [colStep, hcm, wsCell, h]

/-- Enrichment touches no cell outside columns 2 and 3 of the current
write row. -/
lemma enrichStep_frame (ws : Ws) (wr : ℕ) (prow : Row) (lookup : LookupMap)
    (r c : ℕ) (h : ¬ (r = wr ∧ (c = 2 ∨ c = 3))) :
    (enrichStep ws wr prow lookup).cells r c = ws.cells r c := by
  unfold enrichStep
  by_cases hk : enrichKey ws wr prow = ""
  · simp [hk]
  · simp only [hk, if_neg, ite_false]
    cases hl : lookup (pyStrip (enrichKey ws wr prow)) with
    | none => rfl
    | some lm =>
        have h2 : ¬ (r = wr ∧ c = 2) := fun hh => h ⟨hh.1, Or.inl hh.2⟩
        have h3 : ¬ (r = wr ∧ c = 3) := fun hh => h ⟨hh.1, Or.inr hh.2⟩
        simp [wsCell, h2, h3]

/-- One row step touches no cell outside the current write row. -/
lemma rowStep_frame (cols : List ColDesc) (lookup : LookupMap) (st : DState)
    (prow : Row) (r c : ℕ) (h : ¬ r = st.wr) :
    (rowStep cols lookup st prow).ws.cells r c = st.ws.cells r c := by
  show (enrichStep (cols.foldl (colStep prow st.wr) (st.ws, st.cm)).1
      st.wr prow lookup).cells r c = st.ws.cells r c
  rw [enrichStep_frame _ _ _ _ _ _ (fun hh => h hh.1)]
  exact colFold_frame prow st.wr cols (st.ws, st.cm) r c h

/-- The cursor advances by exactly one per result row. -/
lemma processRows_wr (cols : List ColDesc) (lookup : LookupMap) :
    ∀ (rows : List Row) (st : DState),
      (processRows cols lookup st rows).wr = st.wr + rows.length := by
  intro rows
  induction rows with
  | nil => intro st; rfl
  | cons prow rest ih =>
      intro st
      show (processRows cols lookup (rowStep cols lookup st prow) rest).wr = _
      rw [ih]
      show st.wr + 1 + rest.length = st.wr + (rest.length + 1)
      omega

/-- C5: a descriptor whose source expression is empty causes no write for
that column on that row — every cell keeps its previous (template)
content — while the column's position is still resolved in the position
map. -/
theorem c5_empty_expression_no_write (ws : Ws) (cm : ColMap) (wr : ℕ)
    (prow : Row) (col : ColDesc) (h : col.dfcolumnname = "") :
    (∀ r c, (colStep prow wr (ws, cm) col).1.cells r c = ws.cells r c) ∧
    (∃ i, (colStep prow wr (ws, cm) col).2 col.columnname = some i) := by
  have hval : computeVal col.dfcolumnname prow = none := by
    simp [computeVal, h]
  constructor
  · intro r c
    cases hcm : cm col.columnname with
    | some i => simp [colStep, hcm, hval, wsCell]
    | none => simp [colStep, hcm, hval, wsCell]
  · cases hcm : cm col.columnname with
    | some i => exact ⟨i, by simp [colStep, hcm]⟩
    | none => exact ⟨ws.maxCol + 1, by simp [colStep, hcm, cmSet]⟩

/-- C5 witness: the empty-expression descriptor leaves the template cell
at (4,2) intact and still resolves a position for `Notes`. -/
theorem c5_empty_expression_no_write_witness :
    (colStep [] 4 (wsT, cmEmpty) colEmpty).1.cells 4 2 = some (vStr "keep") ∧
    (∃ i, (colStep [] 4 (wsT, cmEmpty) colEmpty).2 "Notes" = some i) :=
  ⟨((c5_empty_expression_no_write wsT cmEmpty 4 [] colEmpty rfl).1 4 2).trans
      (by decide),
    (c5_empty_expression_no_write wsT cmEmpty 4 [] colEmpty rfl).2⟩

/-- C7: the write cursor starts at the initial state's value and advances
by exactly one per source row regardless of what was written, so the
whole run processes `rows.length` rows, the state before the i-th row has
cursor `start + i`, and processing the i-th row modifies no spreadsheet
row other than `start + i`. -/
theorem c7_cursor_no_gaps (ws : Ws) (cols : List ColDesc) (lookup : LookupMap)
    (startingRow : ℕ) (rows : List Row) (i : ℕ) (hi : i < rows.length) :
    (initState ws cols startingRow).wr = startingRow ∧
    (processRows cols lookup (initState ws cols startingRow) rows).wr =
      startingRow + rows.length ∧
    (processRows cols lookup (initState ws cols startingRow) (rows.take i)).wr =
      startingRow + i ∧
    (∀ r c, ¬ r = startingRow + i →
      (processRows cols lookup (initState ws cols startingRow)
          (rows.take (i + 1))).ws.cells r c =
      (processRows cols lookup (initState ws cols startingRow)
          (rows.take i)).ws.cells r c) := by
  set st0 := initState ws cols startingRow with hst0
  have hwr0 : st0.wr = startingRow := rfl
  rw [← hwr0]
  have hlen : (rows.take i).length = i := by
    simp [List.length_take, Nat.min_eq_left (le_of_lt hi)]
  refine ⟨rfl, processRows_wr cols lookup rows st0, ?_, ?_⟩
  · rw [processRows_wr, hlen]
  · intro r c hr
    have htake : rows.take (i + 1) = rows.take i ++ [rows.get ⟨i, hi⟩] := by
      rw [List.take_succ]
      simp [List.getElem?_eq_getElem hi, List.get_eq_getElem]
    rw [htake]
    have hsplit : processRows cols lookup st0 (rows.take i ++ [rows.get ⟨i, hi⟩]) =
        rowStep cols lookup (processRows cols lookup st0 (rows.take i))
          (rows.get ⟨i, hi⟩) := by
      simp only [processRows]
      rw [List.foldl_append]
      rfl
    rw [hsplit]
    apply rowStep_frame
    rw [processRows_wr, hlen]
    exact hr

/-- C7 witness: over a two-row result set starting at cursor 10, the
final cursor is 12, the state before row 1 has cursor 11, and processing
row 1 leaves every spreadsheet row other than 11 unchanged. -/
theorem c7_cursor_no_gaps_witness :
    1 < rowsW.length ∧
    ((initState wsBlank colsEx 10).wr = 10 ∧
      (processRows colsEx lookup0 (initState wsBlank colsEx 10) rowsW).wr =
        10 + rowsW.length ∧
      (processRows colsEx lookup0 (initState wsBlank colsEx 10)
          (rowsW.take 1)).wr = 10 + 1 ∧
      (∀ r c, ¬ r = 10 + 1 →
        (processRows colsEx lookup0 (initState wsBlank colsEx 10)
            (rowsW.take 2)).ws.cells r c =
        (processRows colsEx lookup0 (initState wsBlank colsEx 10)
            (rowsW.take 1)).ws.cells r c)) :=
  ⟨by decide, c7_cursor_no_gaps wsBlank colsEx lookup0 10 rowsW 1 (by decide)⟩

/-- C8: enrichment runs after all descriptor writes of the row; the key
is the stripped read-back of the cell in the key column, falling back to
the row's own `partid` field when that is empty; on a lookup hit the
alternate-id and description cells are overwritten with the record's
fields, and on a miss (or empty key) the worksheet is left exactly as the
expression pass wrote it. -/
theorem c8_lookup_enrichment_overwrite (ws : Ws) (wr : ℕ) (prow : Row)
    (lookup : LookupMap) :
    (∀ (cols : List ColDesc) (st : DState),
      (rowStep cols lookup st prow).ws =
        enrichStep (cols.foldl (colStep prow st.wr) (st.ws, st.cm)).1
          st.wr prow lookup) ∧
    (∀ lm : LookupRec, ¬ enrichKey ws wr prow = "" →
      lookup (pyStrip (enrichKey ws wr prow)) = some lm →
      (enrichStep ws wr prow lookup).cells wr 2 = some (vStr lm.partid) ∧
      (enrichStep ws wr prow lookup).cells wr 3 = some (vStr lm.description)) ∧
    (lookup (pyStrip (enrichKey ws wr prow)) = none →
      enrichStep ws wr prow lookup = ws) ∧
    (enrichKey ws wr prow = "" → enrichStep ws wr prow lookup = ws) ∧
    (∀ v, ws.cells wr 1 = some v → ¬ pyStrip (pyStr v) = "" →
      enrichKey ws wr prow = pyStrip (pyStr v)) ∧
    (ws.cells wr 1 = none → hasField prow "partid" = true →
      ∀ v, rowGet prow "partid" = some v → pyTruthy (some v) = true →
      enrichKey ws wr prow = pyStrip (pyStr v)) := by
  refine ⟨fun cols st => rfl, ?_, ?_, ?_, ?_, ?_⟩
  · intro lm hk hl
    constructor
    · simp [enrichStep, hk, hl, wsCell]
    · simp [enrichStep, hk, hl, wsCell]
  · intro hl
    by_cases hk : enrichKey ws wr prow = ""
    · simp [enrichStep, hk]
    · simp [enrichStep, hk, hl]
  · intro hk
    simp [enrichStep, hk]
  · intro v hv hnz
    simp [enrichKey, hv, hnz]
  · intro hv hf v hg ht
    simp [enrichKey, hv, hf, hg, ht]

/-- C8 witness: the expression pass wrote `UNKNOWN` into the description
cell; the matching lookup record (`P-1` ↦ `ALT-1` / `Alpha Core`) wins:
the final description cell is `Alpha Core` and the alternate-id cell is
`ALT-1`. -/
theorem c8_lookup_enrichment_overwrite_witness :
    (enrichStep wsU 7 [] lmU).cells 7 3 = some (vStr "Alpha Core") ∧
    (enrichStep wsU 7 [] lmU).cells 7 2 = some (vStr "ALT-1") ∧
    wsU.cells 7 3 = some (vStr "UNKNOWN") :=
  ⟨((c8_lookup_enrichment_overwrite wsU 7 [] lmU).2.1 ⟨"ALT-1", "Alpha Core"⟩
      (by decide) (by decide)).2,
    ((c8_lookup_enrichment_overwrite wsU 7 [] lmU).2.1 ⟨"ALT-1", "Alpha Core"⟩
      (by decide) (by decide)).1,
    by decide⟩

/-- C10: enrichment uses fixed spreadsheet columns independent of the
schema and the header-derived position map (it receives neither): the key
is read from column 1 only — two worksheets agreeing on the key cell
yield the same key — and no cell outside columns 2 and 3 of the current
row is ever written (in particular the key column is untouched). -/
theorem c10_enrichment_fixed_columns (ws : Ws) (wr : ℕ) (prow : Row)
    (lookup : LookupMap) :
    (∀ r c, ¬ (r = wr ∧ (c = 2 ∨ c = 3)) →
      (enrichStep ws wr prow lookup).cells r c = ws.cells r c) ∧
    (∀ ws2 : Ws, ws2.cells wr 1 = ws.cells wr 1 →
      enrichKey ws2 wr prow = enrichKey ws wr prow) ∧
    (∀ lm : LookupRec, ¬ enrichKey ws wr prow = "" →
      lookup (pyStrip (enrichKey ws wr prow)) = some lm →
      (enrichStep ws wr prow lookup).cells wr 2 = some (vStr lm.partid) ∧
      (enrichStep ws wr prow lookup).cells wr 3 = some (vStr lm.description)) ∧
    (enrichStep ws wr prow lookup).cells wr 1 = ws.cells wr 1 := by
  refine ⟨fun r c h => enrichStep_frame ws wr prow lookup r c h, ?_, ?_, ?_⟩
  · intro ws2 hw
    simp [enrichKey, hw]
  · intro lm hk hl
    exact ⟨by simp [enrichStep, hk, hl, wsCell],
      by simp [enrichStep, hk, hl, wsCell]⟩
  · exact enrichStep_frame ws wr prow lookup wr 1 (by simp)

/-- C10 witness: on the enrichment fixture, a cell of another row and the
key cell of the current row are untouched. -/
theorem c10_enrichment_fixed_columns_witness :
    (enrichStep wsU 7 [] lmU).cells 6 3 = wsU.cells 6 3 ∧
    (enrichStep wsU 7 [] lmU).cells 7 1 = wsU.cells 7 1 :=
  ⟨(c10_enrichment_fixed_columns wsU 7 [] lmU).1 6 3 (by decide),
    (c10_enrichment_fixed_columns wsU 7 [] lmU).2.2.2⟩

/-- C9 counterexample: the claim says a store error is fatal only for
that document and the run continues with the remaining ones.  With the
first document failing to open, the batch aborts: nothing is recorded as
processed and the second (healthy) document — which alone would be
processed — is never reached. -/
theorem c9_counterexample :
    runBatch ["a.xlsx", "b.xlsx"] [docA, docB] = ([], some "open failed") ∧
    runBatch ["a.xlsx", "b.xlsx"] [docB] = (["b.xlsx"], none) := by
  exact ⟨by decide, by decide⟩

/-- C9 amended: `load_workbook` and `wb.save` are called with no
surrounding handler, so a store error — the workbook failing to open or
failing to save — aborts the entire batch: no per-document failure record
is produced and the remaining documents are not processed, whatever they
are. -/
theorem c9_amended_store_error_aborts_batch (schemas : List String)
    (d : BatchDoc) (rest : List BatchDoc)
    (h1 : schemas.contains d.rel = true)
    (h2 : d.openOk = false ∨ d.saveOk = false) :
    runBatch schemas (d :: rest) =
      ([], some (if d.openOk then "save failed" else "open failed")) := by
  have hrw : runBatch schemas (d :: rest) =
      if schemas.contains d.rel then
        if d.openOk then
          if d.saveOk then
            ((d.rel :: (runBatch schemas rest).1), (runBatch schemas rest).2)
          else ([], some "save failed")
        else ([], some "open failed")
      else runBatch schemas rest := rfl
  rw [hrw, if_pos h1]
  cases ho : d.openOk with
  | false => simp [ho]
  | true =>
      have hs : d.saveOk = false := by
        rcases h2 with h | h
        · rw [ho] at h; exact absurd h (by simp)
        · exact h
      simp [ho, hs]

/-- C9 amended witness: a first document that fails to open, and likewise
one that opens but fails to save, each abort a batch that still had a
healthy document pending. -/
theorem c9_amended_store_error_aborts_batch_witness :
    runBatch ["a.xlsx", "b.xlsx"] [docA, docB] = ([], some "open failed") ∧
    runBatch ["c.xlsx", "b.xlsx"] [docC, docB] = ([], some "save failed") :=
  ⟨(c9_amended_store_error_aborts_batch ["a.xlsx", "b.xlsx"] docA [docB]
      (by decide) (Or.inl (by decide))).trans (by decide),
    (c9_amended_store_error_aborts_batch ["c.xlsx", "b.xlsx"] docC [docB]
      (by decide) (Or.inr (by decide))).trans (by decide)⟩

